import Mathlib

/-!
Verification development for the `emv-term` EMV contact-card terminal.

The definitions below are a shallow embedding of the Rust sources:
`src/tlv.rs` (BER-TLV codec and DOL codec), `src/apdu.rs` (APDU transport)
and `src/main.rs` (application discovery).  Machine integers are modelled
as `Nat` with explicit `% 2 ^ w` at the points where the Rust code can
wrap; fallible code returns `Except`/`Option`; a Rust `panic!` /
`unimplemented!` / `unreachable!` / out-of-bounds index is modelled as a
distinguished `none` / `crash` outcome; loops whose termination is not
structural carry an explicit fuel parameter.
-/

/-- Error type mirroring the subset of `pcsc::Error` the sources produce. -/
inductive PcscError where
  | eof : PcscError
  | unsupportedFeature : PcscError
  | fileNotFound : PcscError
  | unknownError : PcscError
deriving DecidableEq, Repr

/-- Tag identifiers, from `enum TagID` in `src/tlv.rs`. -/
inductive TagID where
  | IssuerIdentificationNumber : TagID
  | ApplicationDedicatedFileName : TagID
  | ApplicationLabel : TagID
  | LanguagePreference : TagID
  | IssuerURL : TagID
  | InternationalBankAccountNumber : TagID
  | BankIdentifierCode : TagID
  | IssuerCountryCodeAlpha2 : TagID
  | IssuerCountryCodeAlpha6 : TagID
  | ApplicationTemplate : TagID
  | FileControlInformationTemplate : TagID
  | ReadRecordResponseMessageTemplate : TagID
  | DirectoryDiscretionaryTemplate : TagID
  | DedicatedFileName : TagID
  | CommandTemplate : TagID
  | ApplicationPriorityIndicator : TagID
  | ShortFileIdentifier : TagID
  | DirectoryDefinitionFileName : TagID
  | ApplicationIdentifier : TagID
  | IssuerCodeTableIndex : TagID
  | ApplicationPreferredName : TagID
  | ProcessingOptionsDataObjectList : TagID
  | LogEntry : TagID
  | FileControlInformationProprietaryTemplate : TagID
  | FileControlInformationIssuerDiscretionaryData : TagID
  | Unknown : Nat → TagID
deriving DecidableEq, Repr

/-- The numeric-to-`TagID` table, from `impl From<u32> for TagID`. -/
def TagID.ofU32 (value : Nat) : TagID :=
  match value with
  | 0x42 => TagID.IssuerIdentificationNumber
  | 0x4F => TagID.ApplicationDedicatedFileName
  | 0x50 => TagID.ApplicationLabel
  | 0x5f2d => TagID.LanguagePreference
  | 0x5f50 => TagID.IssuerURL
  | 0x5f53 => TagID.InternationalBankAccountNumber
  | 0x5f54 => TagID.BankIdentifierCode
  | 0x5f55 => TagID.IssuerCountryCodeAlpha2
  | 0x5f56 => TagID.IssuerCountryCodeAlpha6
  | 0x61 => TagID.ApplicationTemplate
  | 0x6f => TagID.FileControlInformationTemplate
  | 0x70 => TagID.ReadRecordResponseMessageTemplate
  | 0x73 => TagID.DirectoryDiscretionaryTemplate
  | 0x84 => TagID.DedicatedFileName
  | 0x87 => TagID.ApplicationPriorityIndicator
  | 0x88 => TagID.ShortFileIdentifier
  | 0x9d => TagID.DirectoryDefinitionFileName
  | 0x9f06 => TagID.ApplicationIdentifier
  | 0x9f11 => TagID.IssuerCodeTableIndex
  | 0x9f12 => TagID.ApplicationPreferredName
  | 0x9f38 => TagID.ProcessingOptionsDataObjectList
  | 0x9f4d => TagID.LogEntry
  | 0xa5 => TagID.FileControlInformationProprietaryTemplate
  | 0xbf0c => TagID.FileControlInformationIssuerDiscretionaryData
  | u => TagID.Unknown u

/-- The `TagID`-to-numeric conversion, from `impl From<TagID> for u32`.
Every variant other than `CommandTemplate` and `Unknown` hits
`unimplemented!()`, which we model as `none`. -/
def TagID.toU32 (value : TagID) : Option Nat :=
  match value with
  | TagID.CommandTemplate => some 0x83
  | TagID.Unknown u => some u
  | _ => none

/-- Big-endian 8-byte expansion of a `u64`, as `u64::to_be_bytes`. -/
def beBytes8 (v : Nat) : List Nat :=
  [v >>> 56 % 256, v >>> 48 % 256, v >>> 40 % 256, v >>> 32 % 256,
   v >>> 24 % 256, v >>> 16 % 256, v >>> 8 % 256, v % 256]

/-- Big-endian 4-byte expansion of a `u32`, as `u32::to_be_bytes`. -/
def beBytes4 (v : Nat) : List Nat :=
  [v >>> 24 % 256, v >>> 16 % 256, v >>> 8 % 256, v % 256]

/-- The leading-zero-stripping loop of `int_to_least_bytes`: pop the front
byte while it is zero and more than one byte remains. -/
def stripLeadingZeros : List Nat → List Nat
  | 0 :: b :: rest => stripLeadingZeros (b :: rest)
  | l => l

/-- `int_to_least_bytes` from `src/tlv.rs`: minimal big-endian encoding of
a `u64`, always at least one byte. -/
def int_to_least_bytes (value : Nat) : List Nat :=
  stripLeadingZeros (beBytes8 (value % 2 ^ 64))

/-- UTF-8 validity of a byte sequence, the success condition of
`String::from_utf8` (external library behaviour used by `make_primitive`). -/
def isUtf8Cont (b : Nat) : Bool := 0x80 ≤ b && b ≤ 0xbf

/-- Full UTF-8 validation: 1-byte `00..7F`; 2-byte `C2..DF`; 3-byte
`E0 A0..BF`, `E1..EC`, `ED 80..9F`, `EE..EF`; 4-byte `F0 90..BF`,
`F1..F3`, `F4 80..8F`; continuations `80..BF`. -/
def validUtf8 : List Nat → Bool
  | [] => true
  | b0 :: rest =>
    if b0 ≤ 0x7f then validUtf8 rest
    else
      match rest with
      | [] => false
      | b1 :: r1 =>
        if 0xc2 ≤ b0 && b0 ≤ 0xdf then isUtf8Cont b1 && validUtf8 r1
        else
          match r1 with
          | [] => false
          | b2 :: r2 =>
            if b0 = 0xe0 then
              (0xa0 ≤ b1 && b1 ≤ 0xbf) && isUtf8Cont b2 && validUtf8 r2
            else if (0xe1 ≤ b0 && b0 ≤ 0xec) || b0 = 0xee || b0 = 0xef then
              isUtf8Cont b1 && isUtf8Cont b2 && validUtf8 r2
            else if b0 = 0xed then
              (0x80 ≤ b1 && b1 ≤ 0x9f) && isUtf8Cont b2 && validUtf8 r2
            else
              match r2 with
              | [] => false
              | b3 :: r3 =>
                if b0 = 0xf0 then
                  (0x90 ≤ b1 && b1 ≤ 0xbf) && isUtf8Cont b2 && isUtf8Cont b3 && validUtf8 r3
                else if 0xf1 ≤ b0 && b0 ≤ 0xf3 then
                  isUtf8Cont b1 && isUtf8Cont b2 && isUtf8Cont b3 && validUtf8 r3
                else if b0 = 0xf4 then
                  (0x80 ≤ b1 && b1 ≤ 0x8f) && isUtf8Cont b2 && isUtf8Cont b3 && validUtf8 r3
                else false

mutual
/-- Tag contents, from `enum TagContents` in `src/tlv.rs`.  A Rust
`String` is represented by its UTF-8 bytes (which is what
`String::from_utf8` / `String::into_bytes` preserve). -/
inductive TagContents where
  | Invalid : TagContents
  | String : List Nat → TagContents
  | Bytes : List Nat → TagContents
  | Byte : Nat → TagContents
  | Number : Nat → TagContents
  | Constructed : TagList → TagContents

/-- A single tag, from `struct Tag` in `src/tlv.rs`. -/
inductive Tag where
  | mk : TagID → TagContents → Tag

/-- An ordered tag sequence, from `struct TagList` (a `Vec<Tag>`). -/
inductive TagList where
  | nil : TagList
  | cons : Tag → TagList → TagList
end

/-- The `id` field of a `Tag`. -/
def Tag.id : Tag → TagID
  | .mk i _ => i

/-- The `contents` field of a `Tag`. -/
def Tag.contents : Tag → TagContents
  | .mk _ c => c

/-- `TagList::get_tag`: first tag with the given id, if any. -/
def TagList.get_tag : TagList → TagID → Option Tag
  | .nil, _ => none
  | .cons t rest, tid => if t.id = tid then some t else TagList.get_tag rest tid

/-- `TagList::get_tags`: all tags with the given id, in order. -/
def TagList.get_tags : TagList → TagID → List Tag
  | .nil, _ => []
  | .cons t rest, tid =>
    if t.id = tid then t :: TagList.get_tags rest tid else TagList.get_tags rest tid

/-- `Tag::get_tag`: look up inside constructed contents. -/
def Tag.get_tag (t : Tag) (tid : TagID) : Option Tag :=
  match t.contents with
  | .Constructed tl => tl.get_tag tid
  | _ => none

/-- `Tag::get_tags`: look up all matches inside constructed contents. -/
def Tag.get_tags (t : Tag) (tid : TagID) : List Tag :=
  match t.contents with
  | .Constructed tl => tl.get_tags tid
  | _ => []

/-- `TagContents::make_primitive` from `src/tlv.rs`.  Rust indexes
`bytes[0]` for the single-byte tags, which panics on an empty slice; that
panic is the `none` outcome. -/
def makePrimitive (bytes : List Nat) (tag : TagID) : Option TagContents :=
  match tag with
  | TagID.LanguagePreference | TagID.ApplicationLabel =>
    some (if validUtf8 bytes then TagContents.String bytes else TagContents.Invalid)
  | TagID.ShortFileIdentifier | TagID.ApplicationPriorityIndicator
  | TagID.IssuerCodeTableIndex =>
    match bytes with
    | [] => none
    | b :: _ => some (TagContents.Byte b)
  | _ => some (TagContents.Bytes bytes)

/-- `TagList::read_byte`: pop the front byte or fail with `Eof`. -/
def read_byte : List Nat → Except PcscError (Nat × List Nat)
  | [] => .error .eof
  | b :: rest => .ok (b, rest)

/-- The continuation-byte loop of `TagList::read_id`.  In the Rust source
the loop condition tests the shadowed OUTER `next_id` (the first
continuation byte), which never changes across iterations; the embedding
reproduces that verbatim.  `id` is a `u32`, hence the `% 2 ^ 32`. -/
def read_id_loop (next_id : Nat) : Nat → List Nat → Except PcscError (Nat × List Nat)
  | id, [] =>
    if next_id &&& 0b10000000 = 0b10000000 then .error .eof else .ok (id, [])
  | id, b :: rest =>
    if next_id &&& 0b10000000 = 0b10000000 then
      read_id_loop next_id ((id <<< 8) % 2 ^ 32 ||| b) rest
    else .ok (id, b :: rest)

/-- `TagList::read_id`: one byte; if its low five bits are all set, read a
second byte and enter the (buggy) continuation loop. -/
def read_id (l : List Nat) : Except PcscError (Nat × List Nat) :=
  match read_byte l with
  | .error e => .error e
  | .ok (b0, r0) =>
    if b0 &&& 0b11111 = 0b11111 then
      match read_byte r0 with
      | .error e => .error e
      | .ok (n1, r1) => read_id_loop n1 ((b0 <<< 8) % 2 ^ 32 ||| n1) r1
    else .ok (b0, r0)

/-- The byte-shifting loop of `TagList::is_id_primitive`: shift right by 8
while any bit above the low byte is set.  A `u32` needs at most three
shifts, so a fixed recursion depth of 4 covers every input. -/
def shiftToLowByte : Nat → Nat → Nat
  | 0, d => d
  | f + 1, d => if d &&& 0xffffff00 ≠ 0 then shiftToLowByte f (d >>> 8) else d

/-- `TagList::is_id_primitive`: bit `0x20` of the lowest non-zero byte
clear means primitive. -/
def is_id_primitive (id : Nat) : Bool :=
  shiftToLowByte 4 (id % 2 ^ 32) &&& 0b00100000 != 0b00100000

/-- The octet-accumulation loop of `TagList::read_length`.  In the Rust
source `num_octets` is never decremented, so a positive count loops until
the input runs dry; the embedding reproduces that.  `length` is a `u64`. -/
def read_length_loop (num_octets : Nat) : Nat → List Nat → Except PcscError (Nat × List Nat)
  | length, [] =>
    if num_octets > 0 then .error .eof else .ok (length, [])
  | length, b :: rest =>
    if num_octets > 0 then
      read_length_loop num_octets ((length <<< 8) % 2 ^ 64 ||| b) rest
    else .ok (length, b :: rest)

/-- `TagList::read_length`: short form if the high bit is clear, else the
low-7-bit count enters the (buggy) loop. -/
def read_length (l : List Nat) : Except PcscError (Nat × List Nat) :=
  match read_byte l with
  | .error e => .error e
  | .ok (b0, r0) =>
    if b0 &&& 0b10000000 = 0b10000000 then
      read_length_loop (b0 &&& 0b01111111) 0 r0
    else .ok (b0, r0)

/-- `TagList::make_length`: short form for lengths up to `0x7f`; otherwise
the count byte followed by the minimal big-endian bytes.  The Rust source
pushes `num_octets` WITHOUT setting bit `0x80`, reproduced here. -/
def make_length (len : Nat) : List Nat :=
  if len ≤ 0b01111111 then [len % 256]
  else
    let bytes := int_to_least_bytes len
    ((bytes.length % 256) &&& 0b01111111) :: bytes

/-- `TagList::read_content`: exactly `length` bytes, `Eof` if starved. -/
def read_content : List Nat → Nat → Except PcscError (List Nat × List Nat)
  | l, 0 => .ok ([], l)
  | [], _ + 1 => .error .eof
  | b :: rest, n + 1 =>
    match read_content rest n with
    | .error e => .error e
    | .ok (c, r) => .ok (b :: c, r)

/-- Decode outcome: a value, an error carried through `Result`, a Rust
panic (`crash`), or fuel exhaustion of the embedding (`fuelOut`, never
reached when the fuel exceeds the input length). -/
inductive DecResult (α : Type) where
  | ok : α → DecResult α
  | err : PcscError → DecResult α
  | crash : DecResult α
  | fuelOut : DecResult α

/-- The decoding loop of `impl TryFrom<&VecDeque<u8>> for TagList`,
with fuel standing in for the well-founded recursion of the Rust original
(one unit per loop iteration and per constructed-content recursion). -/
def decodeTagsF : Nat → List Nat → DecResult TagList
  | 0, _ => .fuelOut
  | fuel + 1, data =>
    if data = [] then .ok .nil
    else
      match read_id data with
      | .error e => .err e
      | .ok (id, r1) =>
        match read_length r1 with
        | .error e => .err e
        | .ok (length, r2) =>
          match read_content r2 length with
          | .error e => .err e
          | .ok (contents, r3) =>
            if is_id_primitive id then
              match makePrimitive contents (TagID.ofU32 id) with
              | none => .crash
              | some c =>
                match decodeTagsF fuel r3 with
                | .ok rest => .ok (.cons (.mk (TagID.ofU32 id) c) rest)
                | e => e
            else
              match decodeTagsF fuel contents with
              | .ok sub =>
                match decodeTagsF fuel r3 with
                | .ok rest => .ok (.cons (.mk (TagID.ofU32 id) (.Constructed sub)) rest)
                | e => e
              | e => e

/-- `TagList::try_from` on a byte sequence.  The input length plus one is
always enough fuel: every loop step consumes at least two bytes and every
recursion descends into a strictly shorter slice. -/
def decodeTagList (value : List Nat) : DecResult TagList :=
  decodeTagsF (value.length + 1) value

mutual
/-- `impl From<&TagContents> for Vec<u8>`: content bytes of one tag. -/
def encodeContents : TagContents → Option (List Nat)
  | .Invalid => some []
  | .String s => some s
  | .Bytes b => some b
  | .Byte b => some [b]
  | .Number n => some (beBytes4 n)
  | .Constructed t => encodeTagList t

/-- One iteration of `impl From<&TagList> for Vec<u8>`: contents first
(as in the source), then the id via the partial `u32::from`, then
id bytes / length / contents.  `none` models the `unimplemented!` panic. -/
def encodeTag : Tag → Option (List Nat)
  | .mk tid c =>
    match encodeContents c with
    | none => none
    | some data =>
      match TagID.toU32 tid with
      | none => none
      | some idv =>
        some (int_to_least_bytes idv ++ make_length data.length ++ data)

/-- `impl From<&TagList> for Vec<u8>`: concatenate the per-tag encodings. -/
def encodeTagList : TagList → Option (List Nat)
  | .nil => some []
  | .cons t rest =>
    match encodeTag t with
    | none => none
    | some a =>
      match encodeTagList rest with
      | none => none
      | some b => some (a ++ b)
end

/-- A DOL field, from `struct DOLTag` in `src/tlv.rs`. -/
structure DOLTag where
  id : TagID
  contents : TagContents
  exp_len : Nat

/-- `DOL::fit_bytes`: pad or cut `value` to `exp_len`.  In the too-long
numeric case the source returns `data.split_off(exp_len)`, i.e. the bytes
FROM index `exp_len` on (which has `len - exp_len` bytes, not `exp_len`);
reproduced via `List.drop`. -/
def fit_bytes (value : List Nat) (exp_len : Nat) (numeric : Bool) : List Nat :=
  let len := value.length
  if len = exp_len then value
  else if len < exp_len then
    if !numeric then value ++ List.replicate (exp_len - len) 0
    else List.replicate (exp_len - len) 0 ++ value
  else
    if !numeric then value.take exp_len
    else value.drop exp_len

/-- `impl From<DOL> for Vec<u8>`: encode each field.  The Rust call sites
pass `numeric = false` for EVERY variant, including `Number`; reproduced. -/
def encodeDOL : List DOLTag → List Nat
  | [] => []
  | tag :: rest =>
    (match tag.contents with
     | .Invalid | .Constructed _ => List.replicate tag.exp_len 0
     | .String s => fit_bytes s tag.exp_len false
     | .Bytes b => fit_bytes b tag.exp_len false
     | .Byte b => fit_bytes [b] tag.exp_len false
     | .Number n => fit_bytes (beBytes4 n) tag.exp_len false) ++ encodeDOL rest

/-- An APDU command, from `struct ApduCommand` in `src/apdu.rs`
(`class` is spelled `cls` because `class` is reserved in Lean). -/
structure ApduCommand where
  cls : Nat
  instruction : Nat
  param1 : Nat
  param2 : Nat
  data : List Nat
  length_expected : Nat
deriving DecidableEq, Repr

/-- An APDU response, from `struct ApduResponse` in `src/apdu.rs`. -/
structure ApduResponse where
  data : List Nat
  sw1 : Nat
  sw2 : Nat
deriving DecidableEq, Repr

/-- Outcome of a transport exchange: `Ok`, a propagated `Err`, or fuel
exhaustion of the embedding (the Rust loop/recursion has no bound). -/
inductive ApduResult where
  | ok : ApduResponse → ApduResult
  | err : PcscError → ApduResult
  | diverge : ApduResult
deriving DecidableEq, Repr

/-- The terminal status match at the end of `send_apdu`. -/
def resolve_status (r : ApduResponse) : ApduResult :=
  match r.sw1, r.sw2 with
  | 0x90, 0x00 => .ok r
  | 0x6A, 0x81 => .err .unsupportedFeature
  | 0x6A, 0x82 => .err .fileNotFound
  | 0x6A, 0x83 => .err .fileNotFound
  | _, _ => .err .unknownError

/-- The two mutually recursive control points of `send_apdu`: a fresh
transmission of a command, or the `sw1 == 0x61` continuation loop with the
originating class byte and the accumulated response. -/
inductive ApduCall where
  | send : ApduCommand → ApduCall
  | cont : Nat → ApduResponse → ApduCall

/-- `send_apdu` from `src/apdu.rs`, over a deterministic card model
`card : ApduCommand → Except PcscError ApduResponse` standing for
`Card::transmit` plus the status-byte split.  Returns the outcome together
with the trace of transmitted commands.  `.send` transmits, runs the
continuation loop, performs the `sw1 == 0x6C` length-correction reissue and
resolves the final status; `.cont` is the `while sw1 == 0x61` loop, issuing
GET RESPONSE `[cls, 0xC0, 0, 0]` with `length_expected = sw2` and appending
its data.  Fuel only bounds the embedding. -/
def apdu_run (card : ApduCommand → Except PcscError ApduResponse) :
    Nat → ApduCall → ApduResult × List ApduCommand
  | 0, _ => (.diverge, [])
  | fuel + 1, .cont cls resp =>
    if resp.sw1 = 0x61 then
      match apdu_run card fuel (.send (ApduCommand.mk cls 0xC0 0x00 0x00 [] resp.sw2)) with
      | (.ok nr, tr) =>
        match apdu_run card fuel
            (.cont cls (ApduResponse.mk (resp.data ++ nr.data) nr.sw1 nr.sw2)) with
        | (res2, tr2) => (res2, tr ++ tr2)
      | (.err e, tr) => (.err e, tr)
      | (.diverge, tr) => (.diverge, tr)
    else (.ok resp, [])
  | fuel + 1, .send cmd =>
    match card cmd with
    | .error e => (.err e, [cmd])
    | .ok r =>
      match apdu_run card fuel (.cont cmd.cls r) with
      | (.diverge, tr) => (.diverge, cmd :: tr)
      | (.err e, tr) => (.err e, cmd :: tr)
      | (.ok resp, tr) =>
        if resp.sw1 = 0x6c then
          match apdu_run card fuel
              (.send (ApduCommand.mk cmd.cls cmd.instruction cmd.param1 cmd.param2
                cmd.data resp.sw2)) with
          | (res2, tr2) => (res2, cmd :: (tr ++ tr2))
        else (resolve_status resp, cmd :: tr)

/-- `send_apdu` proper: a fresh transmission. -/
def send_apdu (card : ApduCommand → Except PcscError ApduResponse)
    (fuel : Nat) (cmd : ApduCommand) : ApduResult × List ApduCommand :=
  apdu_run card fuel (.send cmd)

/-- The AID whitelist of `find_possible_applications` in `src/main.rs`:
Mastercard and Visa. -/
def acceptable_adf_names : List (List Nat) :=
  [[0xa0, 0x00, 0x00, 0x00, 0x04, 0x10, 0x10],
   [0xa0, 0x00, 0x00, 0x00, 0x03, 0x10, 0x10]]

/-- The index-walking loop of `compare_slice`: for each element of `p1`
test `p2[i]`.  Rust's `p2[i]` panics when `i` is out of bounds, modelled
as `none`. -/
def compare_slice_loop (p2 : List Nat) : Nat → List Nat → Option Bool
  | _, [] => some true
  | i, v1 :: rest =>
    match p2[i]? with
    | none => none
    | some v2 => if v2 ≠ v1 then some false else compare_slice_loop p2 (i + 1) rest

/-- `compare_slice` from `src/main.rs`.  The guard in the source compares
`p1.len()` WITH ITSELF (`p1.len() != p1.len()`), so it never fires;
reproduced verbatim. -/
def compare_slice (p1 p2 : List Nat) : Option Bool :=
  if p1.length ≠ p1.length then some false
  else compare_slice_loop p2 0 p1

/-- The `for acceptable_name in &acceptable_adf_names` loop: first match
wins, a `compare_slice` panic propagates. -/
def check_adf_names : List (List Nat) → List Nat → Option Bool
  | [], _ => some false
  | name :: rest, adf =>
    match compare_slice name adf with
    | none => none
    | some true => some true
    | some false => check_adf_names rest adf

/-- The `'applications` loop body of `find_possible_applications`: keep
the templates whose dedicated-file name passes the whitelist.  `none`
models the `unreachable!` panic (non-`Bytes` ADF contents) and the
`compare_slice` index panic. -/
def filter_applications (acc : List Tag) : List Tag → Option (List Tag)
  | [] => some acc
  | app :: rest =>
    match app.get_tag TagID.ApplicationDedicatedFileName with
    | none => filter_applications acc rest
    | some n =>
      match n.contents with
      | .Bytes a =>
        match check_adf_names acceptable_adf_names a with
        | none => none
        | some true => filter_applications (acc ++ [app]) rest
        | some false => filter_applications acc rest
      | _ => none

/-- Outcome of application discovery: the collected templates, a panic,
or fuel exhaustion of the embedding (the Rust loop has no bound). -/
inductive FindOutcome where
  | found : List Tag → FindOutcome
  | crash : FindOutcome
  | diverge : FindOutcome

/-- The record-reading loop of `find_possible_applications` from
`src/main.rs`, over a card model `card : Nat → Option TagList` standing
for `card_read_record` (`none` = any `Err`, which breaks the loop).  When
a record decodes but carries no read-record-response template the source
says `continue`, which jumps back to the top of `loop` WITHOUT executing
the trailing `i += 1`; the embedding reproduces that (the recursive call
keeps `i` unchanged). -/
def find_possible_applications (card : Nat → Option TagList) :
    Nat → Nat → List Tag → FindOutcome
  | 0, _, _ => .diverge
  | fuel + 1, i, acc =>
    match card i with
    | none => .found acc
    | some r =>
      match r.get_tag TagID.ReadRecordResponseMessageTemplate with
      | none => find_possible_applications card fuel i acc
      | some record =>
        match filter_applications acc (record.get_tags TagID.ApplicationTemplate) with
        | none => .crash
        | some acc2 => find_possible_applications card fuel (i + 1) acc2

/-- Tag-id values the codec can actually read back: a single byte whose
low five bits are not all set, or two bytes where the first has all five
low bits set and the second lacks the continuation bit (longer ids never
survive `read_id`, whose loop tests the shadowed first continuation
byte). -/
def goodIdB (u : Nat) : Bool :=
  (decide (u < 256) && decide (u &&& 0b11111 ≠ 0b11111)) ||
  (decide (256 ≤ u) && decide (u < 65536) && decide ((u >>> 8) &&& 0b11111 = 0b11111)
    && decide ((u % 256) &&& 0b10000000 ≠ 0b10000000))

mutual
/-- Round-trippable tags: an id in the decodable range that the table maps
back to `Unknown`, with raw `Bytes` contents for primitive ids and a
round-trippable child list for constructed ids, and contents short enough
for the (short-form-only) length encoder. -/
def wfTag : Tag → Bool
  | .mk (.Unknown u) (.Bytes bs) =>
    goodIdB u && decide (TagID.ofU32 u = .Unknown u) && is_id_primitive u
      && decide (bs.length ≤ 127)
  | .mk (.Unknown u) (.Constructed tl) =>
    goodIdB u && decide (TagID.ofU32 u = .Unknown u) && !is_id_primitive u && wfList tl
      && (match encodeTagList tl with
          | some bs => decide (bs.length ≤ 127)
          | none => false)
  | _ => false

/-- A list of round-trippable tags. -/
def wfList : TagList → Bool
  | .nil => true
  | .cons t rest => wfTag t && wfList rest
end

/-- Continuation scenario card for the transport: every GET RESPONSE is
answered with `[0xBB]` and status `(0x90, 0x00)`, everything else with
`[0xAA]` and status `(0x61, 0x0A)`. -/
def cardCont : ApduCommand → Except PcscError ApduResponse := fun c =>
  if c.instruction = 0xC0 then .ok (ApduResponse.mk [0xBB] 0x90 0x00)
  else .ok (ApduResponse.mk [0xAA] 0x61 0x0A)

/-- The SELECT-like command driving the continuation scenario. -/
def cmdCont : ApduCommand := ApduCommand.mk 0x00 0xA4 0x04 0x00 [0x31] 0x00

/-- Length-correction scenario card: the corrected command (recognised by
`length_expected = 0x1A`) succeeds with `[1, 2, 3]`, everything else gets
status `(0x6C, 0x1A)`. -/
def cardCorr : ApduCommand → Except PcscError ApduResponse := fun c =>
  if c.length_expected = 0x1A then .ok (ApduResponse.mk [1, 2, 3] 0x90 0x00)
  else .ok (ApduResponse.mk [] 0x6c 0x1A)

/-- The READ-RECORD-like command driving the correction scenario. -/
def cmdCorr : ApduCommand := ApduCommand.mk 0x00 0xB2 0x01 0x0C [] 0x00

/-- Terminal-status scenario card: immediate success with one data byte. -/
def cardTerm : ApduCommand → Except PcscError ApduResponse := fun _ =>
  .ok (ApduResponse.mk [0x07] 0x90 0x00)

/-- The GPO-like command driving the terminal-status scenario. -/
def cmdTerm : ApduCommand := ApduCommand.mk 0x80 0xA8 0x00 0x00 [0x83, 0x00] 0x00

/-- The Visa AID from the whitelist. -/
def visaAid : List Nat := [0xa0, 0x00, 0x00, 0x00, 0x03, 0x10, 0x10]

/-- An application template whose dedicated-file name is exactly the
7-byte Visa AID. -/
def appExact : Tag :=
  .mk .ApplicationTemplate (.Constructed
    (.cons (.mk .ApplicationDedicatedFileName (.Bytes visaAid)) .nil))

/-- An application template whose dedicated-file name is 8 bytes long,
agreeing with the Visa AID on its first 7 bytes. -/
def appLonger : Tag :=
  .mk .ApplicationTemplate (.Constructed
    (.cons (.mk .ApplicationDedicatedFileName (.Bytes (visaAid ++ [0x99]))) .nil))

/-- A directory record holding both templates above. -/
def recordBoth : TagList :=
  .cons (.mk .ReadRecordResponseMessageTemplate
    (.Constructed (.cons appExact (.cons appLonger .nil)))) .nil

/-- Discovery-scenario card: record 1 is `recordBoth`, reading any other
record fails. -/
def cardBoth : Nat → Option TagList := fun i => if i = 1 then some recordBoth else none

/-- A decodable record lacking the read-record-response template. -/
def tlNoTemplate : TagList := .cons (.mk (.Unknown 0x41) (.Bytes [])) .nil

/-- Non-termination-scenario card: every record number reads back as the
template-free record above. -/
def cardNoTemplate : Nat → Option TagList := fun _ => some tlNoTemplate

/-- The round-trip witness tree: a constructed unknown tag holding one
primitive unknown tag. -/
def wfWitnessList : TagList :=
  .cons (.mk (.Unknown 0x62) (.Constructed
    (.cons (.mk (.Unknown 0x41) (.Bytes [0x07])) .nil))) .nil

/-- Claim C3: decoding `0x5F 0x2D` yields the single two-byte id `0x5F2D`,
but a three-byte id whose middle byte has the high bit set does NOT stop
at its final byte: because the loop condition tests the shadowed first
continuation byte, `0x5F 0x81 0x01` drains the input and fails with EOF
instead of yielding `0x5F8101`. -/
theorem tag_id_continuation :
    read_id [0x5F, 0x2D] = .ok (0x5F2D, []) ∧
    read_id [0x5F, 0x81, 0x01] = .error .eof ∧
    TagID.ofU32 0x5F2D = .LanguagePreference := by
  refine ⟨rfl, rfl, rfl⟩

/-- Claim C2: lengths 0 and 127 round-trip through
`make_length`/`read_length`, but 128 and 65535 do not: the encoder omits
the high bit on the long-form count byte, so `make_length 128 = [0x01,
0x80]` reads back as the short-form length 1, and `make_length 65535 =
[0x02, 0xFF, 0xFF]` reads back as 2.  A well-formed long-form length such
as `[0x81, 0x02]` does not decode either, because the decoder's octet loop
never decrements its counter and drains the input. -/
theorem length_codec_boundaries :
    read_length (make_length 0) = .ok (0, []) ∧
    read_length (make_length 127) = .ok (127, []) ∧
    make_length 128 = [0x01, 0x80] ∧
    read_length (make_length 128) = .ok (1, [0x80]) ∧
    make_length 65535 = [0x02, 0xFF, 0xFF] ∧
    read_length (make_length 65535) = .ok (2, [0xFF, 0xFF]) ∧
    read_length [0x81, 0x02] = .error .eof := by
  refine ⟨rfl, rfl, rfl, rfl, rfl, rfl, rfl⟩

/-- Claim C4: the DOL encoder passes `numeric = false` for every content
variant, so a `Number` value 5 (four big-endian bytes `00 00 00 05`)
encoded into a two-byte field keeps the LEADING two bytes `[0x00, 0x00]`,
not the trailing `[0x00, 0x05]` the numeric path would give; non-numeric
one-byte contents are right-padded as claimed. -/
theorem dol_number_fitting :
    encodeDOL [⟨.Unknown 0x9f37, .Number 5, 2⟩] = [0x00, 0x00] ∧
    fit_bytes (beBytes4 5) 2 true = [0x00, 0x05] ∧
    encodeDOL [⟨.Unknown 0x9f37, .Bytes [0x05], 2⟩] = [0x05, 0x00] ∧
    fit_bytes [0x05] 2 true = [0x00, 0x05] := by
  refine ⟨rfl, rfl, rfl, rfl⟩

/-- Claim C10: decoding `0x88 0x00` (short-file-identifier tag with
zero-length content) reaches `make_primitive`, which indexes `bytes[0]`
and panics instead of returning the EOF error. -/
theorem decode_crashes_on_empty_byte_tag :
    decodeTagList [0x88, 0x00] = .crash := by
  rfl

/-- Claim C8: because `compare_slice` compares `p1.len()` with itself, an
eight-byte AID whose first seven bytes match the Visa whitelist entry is
collected alongside the exact seven-byte match, so discovery returns both
templates rather than exactly the matching one. -/
theorem discovery_collects_prefix_match :
    find_possible_applications cardBoth 3 1 [] = .found [appExact, appLonger] ∧
    compare_slice visaAid (visaAid ++ [0x99]) = some true := by
  refine ⟨rfl, rfl⟩

/-- Claim C9: when a record decodes but lacks the read-record-response
template, `continue` skips the record-number increment, so discovery
re-reads the same record forever: no amount of fuel makes the loop
finish. -/
theorem discovery_diverges_without_template :
    ∀ (fuel i : Nat) (acc : List Tag),
      find_possible_applications cardNoTemplate fuel i acc = .diverge := by
  intro fuel
  induction fuel with
  | zero => intro i acc; rfl
  | succ n ih =>
    intro i acc
    show find_possible_applications cardNoTemplate n i acc = .diverge
    exact ih i acc

/-- Concrete instance of the discovery divergence at fuel 5, record 1. -/
theorem discovery_diverges_witness :
    find_possible_applications cardNoTemplate 5 1 [] = .diverge :=
  discovery_diverges_without_template 5 1 []

/-- A successful `resolve_status` can only come from status `(0x90, 0x00)`
and returns the response unchanged. -/
theorem resolve_status_ok (x r : ApduResponse)
    (h : resolve_status x = .ok r) : r.sw1 = 0x90 ∧ r.sw2 = 0x00 ∧ r = x := by
  unfold resolve_status at h
  split at h
  · rename_i h1 h2
    cases h
    exact ⟨h1, h2, rfl⟩
  all_goals simp_all

/-- Every successful transport exchange carries final status `(0x90, 0x00)`:
the only `Ok` branch of the terminal match is the success status. -/
theorem send_ok_status (card : ApduCommand → Except PcscError ApduResponse) :
    ∀ (fuel : Nat) (cmd : ApduCommand) (r : ApduResponse) (tr : List ApduCommand),
      apdu_run card fuel (.send cmd) = (.ok r, tr) → r.sw1 = 0x90 ∧ r.sw2 = 0x00 := by
  intro fuel
  induction fuel with
  | zero => intro cmd r tr h; simp [apdu_run] at h
  | succ n ih =>
    intro cmd r tr h
    rcases hcard : card cmd with e | r0
    · simp only [apdu_run, hcard] at h
      simp at h
    · simp only [apdu_run, hcard] at h
      rcases hcont : apdu_run card n (.cont cmd.cls r0) with ⟨lr, tr1⟩
      simp only [hcont] at h
      rcases lr with resp | e | _
      all_goals dsimp only at h
      · by_cases h6c : resp.sw1 = 0x6c
        · rw [if_pos h6c] at h
          rcases hre : apdu_run card n (.send (ApduCommand.mk cmd.cls cmd.instruction
              cmd.param1 cmd.param2 cmd.data resp.sw2)) with ⟨res2, tr2⟩
          rw [hre] at h
          simp at h
          exact ih _ r tr2 (by rw [hre, h.1])
        · rw [if_neg h6c] at h
          have h2 : resolve_status resp = .ok r := congrArg Prod.fst h
          obtain ⟨ha, hb, _⟩ := resolve_status_ok resp r h2
          exact ⟨ha, hb⟩
      · simp at h
      · simp at h

/-- With any fuel left, the continuation loop is a no-op on a response
whose `sw1` differs from `0x61`. -/
theorem apdu_cont_exit (card : ApduCommand → Except PcscError ApduResponse)
    (fuel cls : Nat) (resp : ApduResponse) (h : resp.sw1 ≠ 0x61) (hf : 1 ≤ fuel) :
    apdu_run card fuel (.cont cls resp) = (.ok resp, []) := by
  rcases fuel with _ | n
  · omega
  · simp [apdu_run, h]

/-- A successful outcome needs at least one unit of fuel. -/
theorem apdu_ok_fuel_pos (card : ApduCommand → Except PcscError ApduResponse)
    (fuel : Nat) (c : ApduCall) (r : ApduResponse) (tr : List ApduCommand)
    (h : apdu_run card fuel c = (.ok r, tr)) : 1 ≤ fuel := by
  rcases fuel with _ | n
  · simp [apdu_run] at h
  · omega

/-- Claim C5: when the first response carries `sw1 = 0x61`, the transport
issues exactly one follow-up GET RESPONSE with the original class byte,
instruction `0xC0`, `p1 = p2 = 0`, empty data and `expectedLength = sw2`
(further `0x61` statuses are absorbed by that recursive exchange), appends
the follow-up data to the first response's data, and the final result
combines all payloads with the final status. -/
theorem apdu_continuation (card : ApduCommand → Except PcscError ApduResponse)
    (cmd : ApduCommand) (d : List Nat) (s2 f : Nat)
    (h : card cmd = .ok (ApduResponse.mk d 0x61 s2)) :
    send_apdu card (f + 2) cmd =
      match send_apdu card f (ApduCommand.mk cmd.cls 0xC0 0x00 0x00 [] s2) with
      | (.ok nr, tr) => (.ok (ApduResponse.mk (d ++ nr.data) nr.sw1 nr.sw2), cmd :: tr)
      | (.err e, tr) => (.err e, cmd :: tr)
      | (.diverge, tr) => (.diverge, cmd :: tr) := by
  unfold send_apdu
  simp only [apdu_run, h, ite_true]
  rcases hs : apdu_run card f (.send (ApduCommand.mk cmd.cls 0xC0 0x00 0x00 [] s2))
    with ⟨res, tr⟩
  rcases res with nr | e | _
  all_goals dsimp only
  · obtain ⟨hnr1, hnr2⟩ := send_ok_status card f _ nr tr hs
    have hfp := apdu_ok_fuel_pos card f _ nr tr hs
    rw [apdu_cont_exit card f cmd.cls (ApduResponse.mk (d ++ nr.data) nr.sw1 nr.sw2)
      (by simp [hnr1]) hfp]
    dsimp only
    rw [hnr1, hnr2]
    simp [resolve_status]

/-- Concrete run of the continuation protocol: status `(0x61, 0x0A)` then
`(0x90, 0x00)` accumulates both data payloads and records exactly the
original command followed by the GET RESPONSE command. -/
theorem apdu_continuation_witness :
    send_apdu cardCont 4 cmdCont =
      (.ok (ApduResponse.mk [0xAA, 0xBB] 0x90 0x00),
       [cmdCont, ApduCommand.mk 0x00 0xC0 0x00 0x00 [] 0x0A]) := by
  have h := apdu_continuation cardCont cmdCont [0xAA] 0x0A 2 rfl
  exact h.trans (by rfl)

/-- Claim C6: when the first response carries `sw1 = 0x6C`, the transport
reissues the original command once, preserving class, instruction, p1, p2
and data and setting `expectedLength = sw2`, and returns that reissue's
result as-is (the first response's data is discarded, not accumulated). -/
theorem apdu_length_correction (card : ApduCommand → Except PcscError ApduResponse)
    (cmd : ApduCommand) (d : List Nat) (s2 f : Nat)
    (h : card cmd = .ok (ApduResponse.mk d 0x6c s2)) :
    send_apdu card (f + 2) cmd =
      ((send_apdu card (f + 1) (ApduCommand.mk cmd.cls cmd.instruction cmd.param1
          cmd.param2 cmd.data s2)).1,
        cmd :: (send_apdu card (f + 1) (ApduCommand.mk cmd.cls cmd.instruction cmd.param1
          cmd.param2 cmd.data s2)).2) := by
  unfold send_apdu
  rw [show f + 2 = (f + 1) + 1 from rfl]
  conv =>
    lhs
    rw [apdu_run]
  rw [h]
  dsimp only
  rw [apdu_cont_exit card (f + 1) cmd.cls (ApduResponse.mk d 0x6c s2) (by simp) (by omega)]
  dsimp only
  rw [if_pos rfl]
  simp

/-- Concrete run of the length correction: status `(0x6C, 0x1A)` triggers
one reissue whose only changed field is `expectedLength = 0x1A`, and the
reissue's result is returned unchanged. -/
theorem apdu_length_correction_witness :
    send_apdu cardCorr 4 cmdCorr =
      (.ok (ApduResponse.mk [1, 2, 3] 0x90 0x00),
       [cmdCorr, ApduCommand.mk 0x00 0xB2 0x01 0x0C [] 0x1A]) := by
  have h := apdu_length_correction cardCorr cmdCorr [] 0x1A 2 rfl
  exact h.trans (by rfl)

/-- Claim C7: a terminal status (neither `0x61` nor `0x6C`) is resolved by
the final match: `(0x90, 0x00)` succeeds with the accumulated data,
`(0x6A, 0x81)` is the unsupported-feature error, `(0x6A, 0x82)` and
`(0x6A, 0x83)` are the not-found error, and every other pair is the
generic protocol error. -/
theorem apdu_status_resolution (card : ApduCommand → Except PcscError ApduResponse)
    (cmd : ApduCommand) (d : List Nat) (s1 s2 f : Nat)
    (h : card cmd = .ok (ApduResponse.mk d s1 s2))
    (h61 : s1 ≠ 0x61) (h6c : s1 ≠ 0x6c) :
    send_apdu card (f + 2) cmd = (resolve_status (ApduResponse.mk d s1 s2), [cmd]) ∧
    resolve_status (ApduResponse.mk d 0x90 0x00) = .ok (ApduResponse.mk d 0x90 0x00) ∧
    resolve_status (ApduResponse.mk d 0x6A 0x81) = .err .unsupportedFeature ∧
    resolve_status (ApduResponse.mk d 0x6A 0x82) = .err .fileNotFound ∧
    resolve_status (ApduResponse.mk d 0x6A 0x83) = .err .fileNotFound ∧
    (¬(s1 = 0x90 ∧ s2 = 0x00) → ¬(s1 = 0x6A ∧ (s2 = 0x81 ∨ s2 = 0x82 ∨ s2 = 0x83)) →
      resolve_status (ApduResponse.mk d s1 s2) = .err .unknownError) := by
  refine ⟨?_, rfl, rfl, rfl, rfl, ?_⟩
  · unfold send_apdu
    rw [show f + 2 = (f + 1) + 1 from rfl]
    conv =>
      lhs
      rw [apdu_run]
    rw [h]
    dsimp only
    rw [apdu_cont_exit card (f + 1) cmd.cls (ApduResponse.mk d s1 s2) h61 (by omega)]
    dsimp only
    rw [if_neg h6c]
  · intro h90 h6a
    unfold resolve_status
    split
    · rename_i h1 h2
      exact absurd ⟨h1, h2⟩ h90
    · rename_i h1 h2
      exact absurd ⟨h1, Or.inl h2⟩ h6a
    · rename_i h1 h2
      exact absurd ⟨h1, Or.inr (Or.inl h2)⟩ h6a
    · rename_i h1 h2
      exact absurd ⟨h1, Or.inr (Or.inr h2)⟩ h6a
    · rfl

/-- Concrete terminal resolution: an immediate `(0x90, 0x00)` response is
returned as success with its data after a single transmission. -/
theorem apdu_status_resolution_witness :
    send_apdu cardTerm 2 cmdTerm = (.ok (ApduResponse.mk [0x07] 0x90 0x00), [cmdTerm]) := by
  have h := apdu_status_resolution cardTerm cmdTerm [0x07] 0x90 0x00 0 rfl
    (by decide) (by decide)
  exact h.1.trans (by rfl)

theorem stripLeadingZeros_zero_cons (b : Nat) (l : List Nat) :
    stripLeadingZeros (0 :: b :: l) = stripLeadingZeros (b :: l) := rfl

theorem stripLeadingZeros_single (a : Nat) : stripLeadingZeros [a] = [a] := by
  rcases a with _ | n <;> rfl

theorem stripLeadingZeros_cons_of_ne (a : Nat) (l : List Nat) (h : a ≠ 0) :
    stripLeadingZeros (a :: l) = a :: l := by
  rcases a with _ | n
  · exact absurd rfl h
  · rcases l with _ | ⟨b, r⟩ <;> rfl

theorem int_to_least_bytes_small (u : Nat) (h : u < 256) : int_to_least_bytes u = [u] := by
  have h64 : u % 2 ^ 64 = u := Nat.mod_eq_of_lt (lt_of_lt_of_le h (by norm_num))
  have e8 : ∀ k, 8 ≤ k → u >>> k = 0 := by
    intro k hk
    rw [Nat.shiftRight_eq_div_pow]
    exact Nat.div_eq_of_lt (lt_of_lt_of_le h (Nat.pow_le_pow_right (show 0 < 2 by norm_num) hk))
  unfold int_to_least_bytes beBytes8
  rw [h64, e8 56 (by norm_num), e8 48 (by norm_num), e8 40 (by norm_num),
    e8 32 (by norm_num), e8 24 (by norm_num), e8 16 (by norm_num), e8 8 (by norm_num)]
  norm_num
  rw [Nat.mod_eq_of_lt h]
  simp only [stripLeadingZeros_zero_cons]
  exact stripLeadingZeros_single u

theorem int_to_least_bytes_two (u : Nat) (h1 : 256 ≤ u) (h2 : u < 65536) :
    int_to_least_bytes u = [u >>> 8, u % 256] := by
  have h64 : u % 2 ^ 64 = u := Nat.mod_eq_of_lt (by omega)
  have e8 : ∀ k, 16 ≤ k → u >>> k = 0 := by
    intro k hk
    rw [Nat.shiftRight_eq_div_pow]
    exact Nat.div_eq_of_lt (lt_of_lt_of_le h2 (Nat.pow_le_pow_right (show 0 < 2 by norm_num) hk))
  have hdiv : u >>> 8 = u / 256 := Nat.shiftRight_eq_div_pow u 8
  have hsh : u >>> 8 % 256 = u >>> 8 := by
    rw [hdiv]
    exact Nat.mod_eq_of_lt (by omega)
  have hne : u >>> 8 ≠ 0 := by
    rw [hdiv]
    omega
  unfold int_to_least_bytes beBytes8
  rw [h64, e8 56 (by norm_num), e8 48 (by norm_num), e8 40 (by norm_num),
    e8 32 (by norm_num), e8 24 (by norm_num), e8 16 (by norm_num), hsh]
  norm_num
  simp only [stripLeadingZeros_zero_cons]
  exact stripLeadingZeros_cons_of_ne _ _ hne

theorem read_id_single (u : Nat) (rest : List Nat) (h : u &&& 0b11111 ≠ 0b11111) :
    read_id (u :: rest) = .ok (u, rest) := by
  simp [read_id, read_byte, h]

theorem read_id_loop_exit (n1 id : Nat) (l : List Nat)
    (h : n1 &&& 0b10000000 ≠ 0b10000000) : read_id_loop n1 id l = .ok (id, l) := by
  rcases l with _ | ⟨b, r⟩ <;> simp [read_id_loop, h]

theorem read_id_double (b0 b1 : Nat) (rest : List Nat)
    (h5 : b0 &&& 0b11111 = 0b11111) (h8 : b1 &&& 0b10000000 ≠ 0b10000000) :
    read_id (b0 :: b1 :: rest) = .ok ((b0 <<< 8) % 2 ^ 32 ||| b1, rest) := by
  simp [read_id, read_byte, h5, read_id_loop_exit _ _ _ h8]

theorem id_recompose (u : Nat) (h1 : 256 ≤ u) (h2 : u < 65536) :
    (u >>> 8) <<< 8 % 2 ^ 32 ||| u % 256 = u := by
  rw [Nat.shiftLeft_eq, Nat.shiftRight_eq_div_pow]
  have hlt : u / 2 ^ 8 * 2 ^ 8 < 2 ^ 32 :=
    lt_of_le_of_lt (Nat.div_mul_le_self u _) (by omega)
  rw [Nat.mod_eq_of_lt hlt]
  have hb : u % 2 ^ 8 < 2 ^ 8 := Nat.mod_lt _ (by norm_num)
  have hor := Nat.mul_add_lt_is_or hb (u / 2 ^ 8)
  rw [show u / 2 ^ 8 * 2 ^ 8 = 2 ^ 8 * (u / 2 ^ 8) by ring,
    show u % 256 = u % 2 ^ 8 by norm_num, ← hor]
  omega

theorem read_length_short (n : Nat) (rest : List Nat) (h : n ≤ 127) :
    read_length (n :: rest) = .ok (n, rest) := by
  have hb : n &&& 0b10000000 ≠ 0b10000000 := by
    have hle : n &&& 0b10000000 ≤ n := Nat.and_le_left
    omega
  simp [read_length, read_byte, hb]

theorem make_length_short (n : Nat) (h : n ≤ 127) : make_length n = [n] := by
  simp [make_length, h, Nat.mod_eq_of_lt (show n < 256 by omega)]

theorem read_content_append : ∀ (c s : List Nat), read_content (c ++ s) c.length = .ok (c, s) := by
  intro c
  induction c with
  | nil => intro s; simp [read_content]
  | cons b r ih => intro s; simp [read_content, ih s]

theorem decode_head (u : Nat) (d suffix : List Nat) (fuel : Nat)
    (hgood : goodIdB u = true) (hlen : d.length ≤ 127) :
    decodeTagsF (fuel + 1) ((int_to_least_bytes u ++ make_length d.length ++ d) ++ suffix) =
      (if is_id_primitive u then
        match makePrimitive d (TagID.ofU32 u) with
        | none => .crash
        | some c =>
          match decodeTagsF fuel suffix with
          | .ok rest => .ok (.cons (.mk (TagID.ofU32 u) c) rest)
          | e => e
      else
        match decodeTagsF fuel d with
        | .ok sub =>
          match decodeTagsF fuel suffix with
          | .ok rest => .ok (.cons (.mk (TagID.ofU32 u) (.Constructed sub)) rest)
          | e => e
        | e => e) := by
  rw [make_length_short d.length hlen]
  simp only [goodIdB, Bool.or_eq_true, Bool.and_eq_true, decide_eq_true_eq] at hgood
  rcases hgood with ⟨h256, h5⟩ | ⟨⟨⟨h1, h2⟩, h5⟩, h8⟩
  · rw [int_to_least_bytes_small u h256]
    simp only [List.cons_append, List.nil_append]
    simp only [decodeTagsF]
    rw [if_neg (by simp)]
    rw [read_id_single u _ h5]
    dsimp only
    rw [read_length_short d.length _ hlen]
    dsimp only
    rw [read_content_append d suffix]
  · rw [int_to_least_bytes_two u h1 h2]
    simp only [List.cons_append, List.nil_append]
    simp only [decodeTagsF]
    rw [if_neg (by simp)]
    rw [read_id_double _ _ _ h5 h8, id_recompose u h1 h2]
    dsimp only
    rw [read_length_short d.length _ hlen]
    dsimp only
    rw [read_content_append d suffix]

theorem head_len (u : Nat) (d : List Nat)
    (hgood : goodIdB u = true) (hlen : d.length ≤ 127) :
    2 + d.length ≤ (int_to_least_bytes u ++ make_length d.length ++ d).length := by
  rw [make_length_short d.length hlen]
  simp only [goodIdB, Bool.or_eq_true, Bool.and_eq_true, decide_eq_true_eq] at hgood
  rcases hgood with ⟨h256, _⟩ | ⟨⟨⟨h1, h2⟩, _⟩, _⟩
  · rw [int_to_least_bytes_small u h256]
    simp
    omega
  · rw [int_to_least_bytes_two u h1 h2]
    simp
    omega

theorem roundtrip_aux : ∀ (n : Nat) (t : TagList) (bs : List Nat) (fuel : Nat),
    sizeOf t ≤ n → wfList t = true → encodeTagList t = some bs → bs.length < fuel →
    decodeTagsF fuel bs = .ok t := by
  intro n
  induction n with
  | zero =>
    intro t bs fuel hsize hwf henc hfuel
    cases t with
    | nil =>
      simp only [encodeTagList, Option.some.injEq] at henc
      subst henc
      rcases fuel with _ | m
      · omega
      · simp [decodeTagsF]
    | cons tg rest => simp at hsize
  | succ n ih =>
    intro t bs fuel hsize hwf henc hfuel
    cases t with
    | nil =>
      simp only [encodeTagList, Option.some.injEq] at henc
      subst henc
      rcases fuel with _ | m
      · omega
      · simp [decodeTagsF]
    | cons tg rest =>
      simp only [wfList, Bool.and_eq_true] at hwf
      obtain ⟨hwt, hwr⟩ := hwf
      simp only [encodeTagList] at henc
      rcases ha : encodeTag tg with _ | a <;> rw [ha] at henc
      · simp at henc
      rcases hb : encodeTagList rest with _ | b <;> rw [hb] at henc
      · simp at henc
      simp only [Option.some.injEq] at henc
      subst henc
      have hsub : sizeOf tg + sizeOf rest ≤ n := by
        simp at hsize
        omega
      cases tg with
      | mk tid c =>
        cases tid <;> cases c <;> simp only [wfTag] at hwt <;> try exact absurd hwt (by decide)
        · rename_i u bsP
          simp only [Bool.and_eq_true, decide_eq_true_eq] at hwt
          obtain ⟨⟨⟨hg, hof⟩, hp⟩, hl⟩ := hwt
          simp only [encodeTag, encodeContents, TagID.toU32, Option.some.injEq] at ha
          subst ha
          have hal := head_len u bsP hg hl
          rcases fuel with _ | m
          · omega
          have hfm : (int_to_least_bytes u ++ make_length bsP.length ++ bsP).length
              + b.length < m + 1 := by
            simp only [List.length_append] at hfuel ⊢
            omega
          rw [decode_head u bsP b m hg hl, hp, if_pos rfl, hof]
          simp only [makePrimitive]
          rw [ih rest b m (by omega) hwr hb (by omega)]
        · rename_i u tl
          simp only [Bool.and_eq_true, decide_eq_true_eq, Bool.not_eq_true'] at hwt
          obtain ⟨⟨⟨⟨hg, hof⟩, hp⟩, hwtl⟩, hcl⟩ := hwt
          rcases hcb : encodeTagList tl with _ | cbs <;> rw [hcb] at hcl
          · simp at hcl
          simp only [decide_eq_true_eq] at hcl
          simp only [encodeTag, encodeContents] at ha
          rw [hcb] at ha
          simp only [TagID.toU32, Option.some.injEq] at ha
          subst ha
          have hal := head_len u cbs hg hcl
          rcases fuel with _ | m
          · omega
          have hfm : (int_to_least_bytes u ++ make_length cbs.length ++ cbs).length
              + b.length < m + 1 := by
            simp only [List.length_append] at hfuel ⊢
            omega
          have hcs : sizeOf tl ≤ n := by
            simp at hsub
            omega
          rw [decode_head u cbs b m hg hcl, hp, if_neg (by simp), hof]
          rw [ih tl cbs m hcs hwtl hcb (by omega)]
          rw [ih rest b m (by omega) hwr hb (by omega)]

/-- Claim C1 fails as stated: the minimally-encoded input `42 01 07`
decodes successfully, but re-encoding the decoded list panics
(`unimplemented!` in `impl From<TagID> for u32` for the recognised id
`IssuerIdentificationNumber`), so `encode (decode bytes) = bytes` does not
hold. -/
theorem tlv_roundtrip_counterexample :
    decodeTagList [0x42, 0x01, 0x07] =
      .ok (.cons (.mk .IssuerIdentificationNumber (.Bytes [0x07])) .nil) ∧
    encodeTagList (.cons (.mk .IssuerIdentificationNumber (.Bytes [0x07])) .nil) = none := by
  exact ⟨rfl, rfl⟩

/-- Claim C1, amended: round-trip holds on the `wfList` domain — trees all
of whose ids are unrecognised (`Unknown`) values in the decodable one- or
two-byte range, whose primitive contents are raw bytes, and whose encoded
contents stay within the short length form (at most 127 bytes).  For such
a tree, decoding the encoding yields the identical tree, and hence
re-encoding the decode of such an encoding reproduces the bytes. -/
theorem tlv_roundtrip_restricted (t : TagList) (bs : List Nat)
    (hwf : wfList t = true) (henc : encodeTagList t = some bs) :
    decodeTagList bs = .ok t ∧ encodeTagList t = some bs :=
  ⟨roundtrip_aux (sizeOf t) t bs (bs.length + 1) (le_refl _) hwf henc (by omega), henc⟩

/-- Concrete round trip: a constructed unknown tag holding a primitive
unknown tag encodes to `62 03 41 01 07` and decodes back to the identical
tree. -/
theorem tlv_roundtrip_restricted_witness :
    wfList wfWitnessList = true ∧
    encodeTagList wfWitnessList = some [0x62, 0x03, 0x41, 0x01, 0x07] ∧
    decodeTagList [0x62, 0x03, 0x41, 0x01, 0x07] = .ok wfWitnessList := by
  have h := tlv_roundtrip_restricted wfWitnessList [0x62, 0x03, 0x41, 0x01, 0x07] rfl rfl
  exact ⟨rfl, rfl, h.1⟩
